import Mathlib

/-!
Shallow embedding of the snake game in `src/main.rs` (FelipMa/snake_game).

The Rust program stores coordinates as `f64`, but every coordinate it ever
produces is integral: the initial body uses whole numbers, movement adds
plus or minus `1.0` or `2.0`, and apple coordinates come out of `floor`.
On this range integer arithmetic models the `f64` arithmetic exactly, so
points are embedded with `Int` coordinates.  Randomness (`rand::random`)
is modelled by an explicit stream of already-floored draws, and the
spawner's self-recursion becomes structural recursion on that stream,
returning `none` when it is exhausted.  Wall-clock data (`tick_rate`,
`Instant`) and rendering are outside the state logic and are omitted.
-/

namespace SnakeGame

/-- Planar position, `Point` in src/main.rs (lines 297-301); see the module
comment for why `f64` coordinates are embedded as `Int`. -/
structure Point where
  x : Int
  y : Int
deriving DecidableEq, Repr

/-- Movement direction, `Direction` in src/main.rs (lines 289-295). -/
inductive Direction where
  | Up
  | Down
  | Left
  | Right
deriving DecidableEq, Repr

/-- Game status, `AppStatus` in src/main.rs (lines 37-42). -/
inductive AppStatus where
  | Menu
  | Playing
  | GameOver
deriving DecidableEq, Repr

/-- Snake model, `Snake` in src/main.rs (lines 282-287): body segments head
first, the direction applied this tick, and the pending direction. -/
structure Snake where
  body : List Point
  direction : Direction
  next_direction : Direction
deriving DecidableEq, Repr

/-- Field dimensions: the `width`/`height` of the `ratatui::Rect` the
terminal supplies each frame (`u16` values, hence `Nat`). -/
structure Rect where
  width : Nat
  height : Nat
deriving DecidableEq, Repr

/-- Apple, `Apple` in src/main.rs (lines 332-335). -/
structure Apple where
  point : Point
deriving DecidableEq, Repr

/-- Application state, `App` in src/main.rs (lines 25-35).  `tick_rate` is a
wall-clock `Duration` that never influences the state logic, so it is
omitted. -/
structure App where
  status : AppStatus
  exit : Bool
  snake : Snake
  tick_count : Nat
  field : Rect
  score : Nat
  apple : Apple
deriving DecidableEq, Repr

/-- Key codes distinguished by `App::handle_key_event` (src/main.rs lines
163-194): `Space` is `Char(' ')`, `CharW` is `Char('w')` and so on, and
`Other` stands for every key the final wildcard arm absorbs. -/
inductive KeyCode where
  | Esc
  | Space
  | Enter
  | Up
  | Down
  | Left
  | Right
  | CharW
  | CharA
  | CharS
  | CharD
  | Other
deriving DecidableEq, Repr

/-- Canonical fresh snake, `Snake::new` (src/main.rs lines 304-317). -/
def Snake.new : Snake where
  body := [⟨8, 0⟩, ⟨6, 0⟩, ⟨4, 0⟩, ⟨2, 0⟩, ⟨0, 0⟩]
  direction := Direction.Right
  next_direction := Direction.Right

/-- Initial application state, `App::new` (src/main.rs lines 45-58); the
field is `Rect::default()`, i.e. all zero, and the apple sits at the
origin. -/
def App.new : App where
  status := AppStatus.Menu
  exit := false
  snake := Snake.new
  tick_count := 0
  field := ⟨0, 0⟩
  score := 0
  apple := ⟨⟨0, 0⟩⟩

/-- The direct opposite of a direction (the pairing the reversal guard in
`App::handle_key_event` encodes arm by arm). -/
def Direction.opposite : Direction → Direction
  | .Up => .Down
  | .Down => .Up
  | .Left => .Right
  | .Right => .Left

/-- Direction requested by a directional key, if any (the grouping of the
arms `Up | Char('w')`, `Down | Char('s')`, `Left | Char('a')`,
`Right | Char('d')` in src/main.rs lines 175-190). -/
def keyDirection : KeyCode → Option Direction
  | .Up => some Direction.Up
  | .CharW => some Direction.Up
  | .Down => some Direction.Down
  | .CharS => some Direction.Down
  | .Left => some Direction.Left
  | .CharA => some Direction.Left
  | .Right => some Direction.Right
  | .CharD => some Direction.Right
  | _ => none

/-- Possible values of `(r * c).floor()` for `r` drawn by
`rand::random::<f64>()` from `[0, 1)`: for positive `c` the floor lies in
`[0, c)`; for `c = 0` it is `0`; for negative `c` the product lies in
`(c, 0]`, so the floor lies in `[c, 0]`. -/
def floorRange (c k : Int) : Prop :=
  if 0 < c then 0 ≤ k ∧ k < c
  else if c = 0 then k = 0
  else c ≤ k ∧ k ≤ 0

instance (c k : Int) : Decidable (floorRange c k) := by
  unfold floorRange
  infer_instance

/-- A pair of floored draws that the two `rand::random::<f64>()` calls in
`App::generate_apple` can actually deliver for the given field. -/
def validDraw (field : Rect) (d : Int × Int) : Prop :=
  floorRange ((field.width : Int) - 3) d.1 ∧ floorRange ((field.height : Int) - 3) d.2

instance (field : Rect) (d : Int × Int) : Decidable (validDraw field d) := by
  unfold validDraw
  infer_instance

/-- Apple spawner, `App::generate_apple` (src/main.rs lines 134-149): draw a
candidate, bump an odd x to the next even value, and retry on collision
with the body.  The native code retries by unbounded self-recursion; that
is modelled by recursion on the draw stream, `none` meaning the stream ran
out while the native code would still be recursing. -/
def generate_apple (field : Rect) (body : List Point) : List (Int × Int) → Option Point
  | [] => none
  | (dx, dy) :: rest =>
    if (⟨if dx % 2 ≠ 0 then dx + 1 else dx, dy⟩ : Point) ∈ body then
      generate_apple field body rest
    else some ⟨if dx % 2 ≠ 0 then dx + 1 else dx, dy⟩

/-- Body-shifting loop of `App::tick` (src/main.rs lines 114-119):
`for i in (1..len).rev() { body[i] = body[i-1]; if nh == body[i-1] { game over } }`.
`shiftLoop nh n body go` runs the iterations `i = n, n-1, ..., 1` on
`body`, with `go` the game-over flag accumulated so far; the actual loop is
`shiftLoop nh (body.length - 1) body false`.  Indexing never goes out of
range for the arguments the program uses, so the panic-free `getD` with a
junk default is an exact model. -/
def shiftLoop (nh : Point) : Nat → List Point → Bool → List Point × Bool
  | 0, body, go => (body, go)
  | n + 1, body, go =>
    shiftLoop nh n (body.set (n + 1) (body.getD n ⟨0, 0⟩))
      (go || decide (nh = body.getD n ⟨0, 0⟩))

/-- Head position computed at the start of a tick (src/main.rs lines
85-104): the pending direction is committed before the match, so the step
is taken in direction `next_direction`; `body[0]` is read before any
mutation.  Horizontal steps are 2 units, vertical ones 1 unit. -/
def App.nextHead (a : App) : Point :=
  match a.snake.next_direction with
  | .Up => ⟨(a.snake.body.getD 0 ⟨0, 0⟩).x, (a.snake.body.getD 0 ⟨0, 0⟩).y - 1⟩
  | .Down => ⟨(a.snake.body.getD 0 ⟨0, 0⟩).x, (a.snake.body.getD 0 ⟨0, 0⟩).y + 1⟩
  | .Left => ⟨(a.snake.body.getD 0 ⟨0, 0⟩).x - 2, (a.snake.body.getD 0 ⟨0, 0⟩).y⟩
  | .Right => ⟨(a.snake.body.getD 0 ⟨0, 0⟩).x + 2, (a.snake.body.getD 0 ⟨0, 0⟩).y⟩

/-- Body as it stands when the shift loop starts (src/main.rs lines
106-112): when the next head hits the apple, a copy of the last segment
(`body.last().unwrap()`, i.e. the element at index `length - 1`) has been
pushed; otherwise the body is untouched. -/
def App.preShiftBody (a : App) : List Point :=
  if a.nextHead = a.apple.point then
    a.snake.body ++ [a.snake.body.getD (a.snake.body.length - 1) ⟨0, 0⟩]
  else a.snake.body

/-- Score after the apple check of a tick (src/main.rs line 110). -/
def App.tickScore (a : App) : Nat :=
  if a.nextHead = a.apple.point then a.score + 1 else a.score

/-- Apple position after the apple check of a tick (src/main.rs line 111):
on a hit the spawner runs against the already-pushed body, otherwise the
apple stays put. -/
def App.tickAppleOpt (a : App) (draws : List (Int × Int)) : Option Point :=
  if a.nextHead = a.apple.point then generate_apple a.field a.preShiftBody draws
  else some a.apple.point

/-- Wall test of `App::tick` (src/main.rs lines 121-127), exactly the four
comparisons of the source: out only when a coordinate is negative or
strictly beyond `width - 3` respectively `height - 3`. -/
def wallHitB (field : Rect) (p : Point) : Bool :=
  decide (p.x < 0) || decide (p.x > (field.width : Int) - 3) ||
    decide (p.y < 0) || decide (p.y > (field.height : Int) - 3)

/-- Proposition form of `wallHitB`. -/
def wallOut (field : Rect) (p : Point) : Prop :=
  p.x < 0 ∨ p.x > (field.width : Int) - 3 ∨ p.y < 0 ∨ p.y > (field.height : Int) - 3

instance (field : Rect) (p : Point) : Decidable (wallOut field p) := by
  unfold wallOut
  infer_instance

/-- The self-collision the shift loop can detect: the next head equals a
pre-shift segment at some index other than the last (the loop reads
`body[i-1]` for `i = len-1, ..., 1`, hence indices `0` to `len-2`). -/
def App.selfHit (a : App) : Prop :=
  ∃ i, i < a.preShiftBody.length - 1 ∧ a.nextHead = a.preShiftBody.getD i ⟨0, 0⟩

/-- One simulation step, `App::tick` (src/main.rs lines 82-132).  The tick
counter is always incremented; the rest runs only while `Playing`.  In
source order: commit the pending direction, compute the next head, handle
the apple hit (push a copy of the last segment, bump the score, respawn the
apple — `none` propagates a spawner that never produced a point), run the
shift loop, which flags self-collision against the pre-shift body, test the
walls, and write the new head into slot 0.  The two source assignments of
`GameOver` are folded into one `if` on the disjunction of the two flags,
which is equivalent because both assignments store the same value. -/
def App.tick (a : App) (draws : List (Int × Int)) : Option App :=
  if a.status = AppStatus.Playing then
    match a.tickAppleOpt draws with
    | none => none
    | some ap =>
      some { a with
        tick_count := a.tick_count + 1
        status :=
          if (shiftLoop a.nextHead (a.preShiftBody.length - 1) a.preShiftBody false).2
              || wallHitB a.field a.nextHead
          then AppStatus.GameOver else a.status
        snake :=
          { body := (shiftLoop a.nextHead (a.preShiftBody.length - 1) a.preShiftBody false).1.set 0 a.nextHead
            direction := a.snake.next_direction
            next_direction := a.snake.next_direction }
        score := a.tickScore
        apple := ⟨ap⟩ }
  else some { a with tick_count := a.tick_count + 1 }

/-- Start of a round, `App::start_game` (src/main.rs lines 200-205): reset
the snake and the score, respawn the apple against the fresh body, then
switch to `Playing`.  A spawner that never produces a point (`none`) keeps
the native code recursing before the status assignment, which the `none`
branch models. -/
def App.start_game (a : App) (draws : List (Int × Int)) : Option App :=
  match generate_apple a.field Snake.new.body draws with
  | none => none
  | some p =>
    some { a with
      snake := Snake.new
      score := 0
      apple := ⟨p⟩
      status := AppStatus.Playing }

/-- Key dispatch, `App::handle_key_event` (src/main.rs lines 163-194),
arm by arm: `Esc` sets the exit flag; space starts a game from `Menu` or
`GameOver`; enter returns from `GameOver` to `Menu`; each directional key
stores its direction as pending unless the current direction is the exact
opposite, in which case nothing happens.  The directional arms do not
inspect the status. -/
def App.handle_key_event (a : App) (k : KeyCode) (draws : List (Int × Int)) : Option App :=
  match k with
  | .Esc => some { a with exit := true }
  | .Space =>
    match a.status with
    | .Menu => a.start_game draws
    | .GameOver => a.start_game draws
    | _ => some a
  | .Enter =>
    match a.status with
    | .GameOver => some { a with status := AppStatus.Menu }
    | _ => some a
  | .Up | .CharW =>
    match a.snake.direction with
    | .Down => some a
    | _ => some { a with snake := { a.snake with next_direction := Direction.Up } }
  | .Down | .CharS =>
    match a.snake.direction with
    | .Up => some a
    | _ => some { a with snake := { a.snake with next_direction := Direction.Down } }
  | .Left | .CharA =>
    match a.snake.direction with
    | .Right => some a
    | _ => some { a with snake := { a.snake with next_direction := Direction.Left } }
  | .Right | .CharD =>
    match a.snake.direction with
    | .Left => some a
    | _ => some { a with snake := { a.snake with next_direction := Direction.Right } }
  | .Other => some a

/-- Invariant of claim C6: the pending direction is never the direct
opposite of the current direction. -/
def SnakeInv (a : App) : Prop :=
  a.snake.next_direction ≠ a.snake.direction.opposite

instance (a : App) : Decidable (SnakeInv a) := by
  unfold SnakeInv
  infer_instance

/-- Playing state whose snake loops so that the next head lands exactly on
the pre-shift tail segment and on no other segment (head `(0,1)` moving up
onto the tail `(0,0)`). -/
def exC1_tail : App :=
  ⟨.Playing, false, ⟨[⟨0, 1⟩, ⟨0, 2⟩, ⟨2, 2⟩, ⟨2, 1⟩, ⟨2, 0⟩, ⟨0, 0⟩], .Up, .Up⟩,
    0, ⟨40, 20⟩, 0, ⟨⟨10, 10⟩⟩⟩

/-- Playing state whose snake runs left into its own neck segment. -/
def exC1 : App :=
  ⟨.Playing, false, ⟨[⟨4, 0⟩, ⟨2, 0⟩, ⟨0, 0⟩], .Left, .Left⟩, 0, ⟨40, 20⟩, 0, ⟨⟨10, 10⟩⟩⟩

/-- State after one tick of `exC1`. -/
def exC1' : App :=
  ⟨.GameOver, false, ⟨[⟨2, 0⟩, ⟨4, 0⟩, ⟨2, 0⟩], .Left, .Left⟩, 1, ⟨40, 20⟩, 0, ⟨⟨10, 10⟩⟩⟩

/-- Playing state whose next head x lands exactly on `width - 3`. -/
def exC3_edge : App :=
  ⟨.Playing, false, ⟨[⟨35, 0⟩, ⟨33, 0⟩, ⟨31, 0⟩, ⟨29, 0⟩, ⟨27, 0⟩], .Right, .Right⟩,
    0, ⟨40, 20⟩, 0, ⟨⟨10, 10⟩⟩⟩

/-- Playing state whose next head x exceeds `width - 3`. -/
def exC3 : App :=
  ⟨.Playing, false, ⟨[⟨36, 0⟩, ⟨34, 0⟩, ⟨32, 0⟩, ⟨30, 0⟩, ⟨28, 0⟩], .Right, .Right⟩,
    0, ⟨40, 20⟩, 0, ⟨⟨10, 10⟩⟩⟩

/-- State after one tick of `exC3`. -/
def exC3' : App :=
  ⟨.GameOver, false, ⟨[⟨38, 0⟩, ⟨36, 0⟩, ⟨34, 0⟩, ⟨32, 0⟩, ⟨30, 0⟩], .Right, .Right⟩,
    1, ⟨40, 20⟩, 0, ⟨⟨10, 10⟩⟩⟩

/-- Playing state about to eat the apple at `(10, 0)`. -/
def exC4 : App := ⟨.Playing, false, Snake.new, 0, ⟨40, 20⟩, 0, ⟨⟨10, 0⟩⟩⟩

/-- State after one tick of `exC4` with draw `(20, 10)`. -/
def exC4' : App :=
  ⟨.Playing, false, ⟨[⟨10, 0⟩, ⟨8, 0⟩, ⟨6, 0⟩, ⟨4, 0⟩, ⟨2, 0⟩, ⟨0, 0⟩], .Right, .Right⟩,
    1, ⟨40, 20⟩, 1, ⟨⟨20, 10⟩⟩⟩

/-- Fresh application state with a playable field. -/
def exC5 : App := { App.new with field := ⟨40, 20⟩ }

/-- State after pressing space in `exC5` with draw `(10, 10)`. -/
def exC5' : App := ⟨.Playing, false, Snake.new, 0, ⟨40, 20⟩, 0, ⟨⟨10, 10⟩⟩⟩

/-- State after requesting `Up` in the fresh state. -/
def exC6' : App := { App.new with snake := ⟨Snake.new.body, .Right, .Up⟩ }

/-- Fresh application state moved to the game-over screen. -/
def exC7go : App := { App.new with status := .GameOver }

/-- Playing state used to exercise the key-dispatch part of claim C9. -/
def exC9 : App := ⟨.Playing, false, Snake.new, 0, ⟨40, 20⟩, 0, ⟨⟨10, 10⟩⟩⟩

/-- Fresh application state with a 30 by 30 field. -/
def exC10 : App := { App.new with field := ⟨30, 30⟩ }

/-- State after starting a game from `exC10` with draw `(12, 4)`. -/
def exC10' : App := ⟨.Playing, false, Snake.new, 0, ⟨30, 30⟩, 0, ⟨⟨12, 4⟩⟩⟩

lemma getD_set_ne {α : Type} (l : List α) (x d : α) {i j : Nat} (h : i ≠ j) :
    (l.set i x).getD j d = l.getD j d := by
  simp [List.getD, List.getElem?_set_ne h]

lemma getD_set_self {α : Type} (l : List α) (x d : α) {i : Nat} (h : i < l.length) :
    (l.set i x).getD i d = x := by
  simp [List.getD, List.getElem?_set_self, h]

lemma getD_append_left {α : Type} (l l' : List α) (d : α) {i : Nat} (h : i < l.length) :
    (l ++ l').getD i d = l.getD i d := by
  simp [List.getD, List.getElem?_append_left h]

lemma shiftLoop_length (nh : Point) (n : Nat) :
    ∀ (body : List Point) (go : Bool), (shiftLoop nh n body go).1.length = body.length := by
  induction n with
  | zero => intro body go; rfl
  | succ n ih =>
    intro body go
    simp only [shiftLoop]
    rw [ih, List.length_set]

lemma shiftLoop_flag (nh : Point) (n : Nat) :
    ∀ (body : List Point) (go : Bool), n < body.length →
      ((shiftLoop nh n body go).2 = true ↔
        (go = true ∨ ∃ i, i < n ∧ nh = body.getD i ⟨0, 0⟩)) := by
  induction n with
  | zero =>
    intro body go _
    simp [shiftLoop]
  | succ n ih =>
    intro body go h
    have hlen : n < (body.set (n + 1) (body.getD n ⟨0, 0⟩)).length := by
      rw [List.length_set]; omega
    simp only [shiftLoop]
    rw [ih _ _ hlen]
    simp only [Bool.or_eq_true, decide_eq_true_eq]
    constructor
    · rintro (⟨hgo | he⟩ | ⟨i, hi, he⟩)
      · exact Or.inl hgo
      · exact Or.inr ⟨n, by omega, he⟩
      · rw [getD_set_ne _ _ _ (show n + 1 ≠ i by omega)] at he
        exact Or.inr ⟨i, by omega, he⟩
    · rintro (hgo | ⟨i, hi, he⟩)
      · exact Or.inl (Or.inl hgo)
      · by_cases hin : i = n
        · subst hin
          exact Or.inl (Or.inr he)
        · refine Or.inr ⟨i, by omega, ?_⟩
          rw [getD_set_ne _ _ _ (show n + 1 ≠ i by omega)]
          exact he

lemma shiftLoop_getD (nh : Point) (n : Nat) :
    ∀ (body : List Point) (go : Bool) (j : Nat), n < body.length →
      ((shiftLoop nh n body go).1.getD j ⟨0, 0⟩ =
        if 1 ≤ j ∧ j ≤ n then body.getD (j - 1) ⟨0, 0⟩ else body.getD j ⟨0, 0⟩) := by
  induction n with
  | zero =>
    intro body go j _
    rw [if_neg (by omega)]
    rfl
  | succ n ih =>
    intro body go j h
    have hlen : n < (body.set (n + 1) (body.getD n ⟨0, 0⟩)).length := by
      rw [List.length_set]; omega
    simp only [shiftLoop]
    rw [ih _ _ j hlen]
    by_cases h1 : 1 ≤ j ∧ j ≤ n
    · rw [if_pos h1, if_pos (by omega)]
      exact getD_set_ne _ _ _ (by omega)
    · rw [if_neg h1]
      by_cases h2 : j = n + 1
      · subst h2
        rw [if_pos (by omega), getD_set_self _ _ _ h]
        simp
      · rw [if_neg (by omega)]
        exact getD_set_ne _ _ _ (by omega)

lemma tick_notPlaying (a : App) (draws : List (Int × Int))
    (h : ¬ a.status = AppStatus.Playing) :
    a.tick draws = some { a with tick_count := a.tick_count + 1 } := by
  unfold App.tick
  rw [if_neg h]

lemma tick_char (a : App) (draws : List (Int × Int)) (a' : App)
    (h : a.status = AppStatus.Playing) (ht : a.tick draws = some a') :
    a'.status =
      (if (shiftLoop a.nextHead (a.preShiftBody.length - 1) a.preShiftBody false).2
          || wallHitB a.field a.nextHead
        then AppStatus.GameOver else AppStatus.Playing) ∧
    a'.snake.body =
      ((shiftLoop a.nextHead (a.preShiftBody.length - 1) a.preShiftBody false).1).set 0 a.nextHead ∧
    a'.score = a.tickScore ∧
    a'.snake.direction = a.snake.next_direction ∧
    a'.snake.next_direction = a.snake.next_direction ∧
    a'.exit = a.exit ∧
    a'.field = a.field := by
  unfold App.tick at ht
  rw [if_pos h] at ht
  cases hg : a.tickAppleOpt draws with
  | none => rw [hg] at ht; cases ht
  | some ap =>
    rw [hg] at ht
    have he := Option.some.inj ht
    subst he
    refine ⟨?_, rfl, rfl, rfl, rfl, rfl, rfl⟩
    show (if _ then AppStatus.GameOver else a.status) = _
    rw [h]

lemma tick_selfFlag (a : App) :
    ((shiftLoop a.nextHead (a.preShiftBody.length - 1) a.preShiftBody false).2 = true ↔
      a.selfHit) := by
  unfold App.selfHit
  cases hb : a.preShiftBody with
  | nil => simp [shiftLoop]
  | cons p l =>
    have h : (p :: l).length - 1 < (p :: l).length := by simp
    rw [shiftLoop_flag _ _ _ _ h]
    simp

lemma opposite_opposite (d : Direction) : d.opposite.opposite = d := by
  cases d <;> rfl

lemma opposite_ne (d : Direction) : d ≠ d.opposite := by
  cases d <;> decide

lemma handle_directional (a : App) (k : KeyCode) (d : Direction)
    (hk : keyDirection k = some d) (draws : List (Int × Int)) :
    a.handle_key_event k draws =
      some { a with snake := { a.snake with
        next_direction :=
          if a.snake.direction = d.opposite then a.snake.next_direction else d } } := by
  cases k <;> simp only [keyDirection, Option.some.injEq, reduceCtorEq] at hk <;>
    subst hk <;> cases hd : a.snake.direction <;>
      simp [App.handle_key_event, Direction.opposite, hd] <;> (try rw [← hd])

lemma snakeInv_dirUpdate (a : App) (h : SnakeInv a) (d : Direction) :
    SnakeInv { a with snake := { a.snake with
      next_direction :=
        if a.snake.direction = d.opposite then a.snake.next_direction else d } } := by
  unfold SnakeInv at *
  by_cases hcd : a.snake.direction = d.opposite
  · rw [if_pos hcd]
    exact h
  · rw [if_neg hcd]
    show d ≠ a.snake.direction.opposite
    intro he
    exact hcd (by rw [he, opposite_opposite])

lemma generate_apple_not_mem (field : Rect) (body : List Point) :
    ∀ (draws : List (Int × Int)) (p : Point),
      generate_apple field body draws = some p → p ∉ body := by
  intro draws
  induction draws with
  | nil => intro p h; cases h
  | cons d rest ih =>
    intro p h
    obtain ⟨dx, dy⟩ := d
    simp only [generate_apple] at h
    by_cases hmem : (⟨if dx % 2 ≠ 0 then dx + 1 else dx, dy⟩ : Point) ∈ body
    · rw [if_pos hmem] at h
      exact ih p h
    · rw [if_neg hmem] at h
      have he := Option.some.inj h
      subst he
      exact hmem

lemma generate_apple_sound (field : Rect) (body : List Point)
    (hw : 3 < field.width) (hh : 3 < field.height) :
    ∀ (draws : List (Int × Int)) (p : Point), (∀ d ∈ draws, validDraw field d) →
      generate_apple field body draws = some p →
      p.x % 2 = 0 ∧ 0 ≤ p.x ∧ p.x ≤ (field.width : Int) - 3 ∧
        0 ≤ p.y ∧ p.y < (field.height : Int) - 3 ∧ p ∉ body := by
  intro draws
  induction draws with
  | nil => intro p _ h; cases h
  | cons d rest ih =>
    intro p hd h
    obtain ⟨dx, dy⟩ := d
    have hv := hd (dx, dy) (List.mem_cons_self _ _)
    have hcw : (0 : Int) < (field.width : Int) - 3 := by
      have : (3 : Int) < (field.width : Int) := by exact_mod_cast hw
      omega
    have hch : (0 : Int) < (field.height : Int) - 3 := by
      have : (3 : Int) < (field.height : Int) := by exact_mod_cast hh
      omega
    obtain ⟨hvx, hvy⟩ := hv
    unfold floorRange at hvx hvy
    rw [if_pos hcw] at hvx
    rw [if_pos hch] at hvy
    simp only [generate_apple] at h
    by_cases hmem : (⟨if dx % 2 ≠ 0 then dx + 1 else dx, dy⟩ : Point) ∈ body
    · rw [if_pos hmem] at h
      exact ih p (fun d hdm => hd d (List.mem_cons_of_mem _ hdm)) h
    · rw [if_neg hmem] at h
      have he := Option.some.inj h
      subst he
      have hpar := Int.emod_two_eq_zero_or_one dx
      by_cases hodd : dx % 2 ≠ 0
      · rw [if_pos hodd] at hmem ⊢
        dsimp only
        exact ⟨by omega, by omega, by omega, hvy.1, hvy.2, hmem⟩
      · rw [if_neg hodd] at hmem ⊢
        dsimp only
        exact ⟨by omega, hvx.1, by omega, hvy.1, hvy.2, hmem⟩

/-- Claim C1, counterexample: in `exC1_tail` the status is `Playing` and the
computed next head `(0,0)` equals the pre-shift body segment at index 5 —
the tail, a segment other than the head — yet the tick leaves the status
`Playing`, because the source loop never compares the next head against the
last pre-shift segment.  This refutes the claim for the tail index. -/
theorem claim_C1_counterexample :
    exC1_tail.status = AppStatus.Playing ∧
    exC1_tail.nextHead = exC1_tail.snake.body.getD 5 ⟨0, 0⟩ ∧
    (5 : Nat) ≠ 0 ∧ exC1_tail.snake.body.length = 6 ∧
    (exC1_tail.tick []).map App.status = some AppStatus.Playing := by
  decide

/-- Claim C1, amended: for every tick executed while the status is Playing,
if the computed next head position equals a pre-shift body segment at any
index other than the last — for every body length and every such index —
then after the tick the status is GameOver.  (The pre-shift body is the
body after the apple-growth push, exactly the list the source loop shifts;
its checks cover indices 0 through length-2, so every segment except the
tail.) -/
theorem claim_C1_theorem (a : App) (draws : List (Int × Int)) (a' : App)
    (h : a.status = AppStatus.Playing) (ht : a.tick draws = some a')
    (i : Nat) (hi : i < a.preShiftBody.length - 1)
    (he : a.nextHead = a.preShiftBody.getD i ⟨0, 0⟩) :
    a'.status = AppStatus.GameOver := by
  have hc := (tick_char a draws a' h ht).1
  have hf : (shiftLoop a.nextHead (a.preShiftBody.length - 1) a.preShiftBody false).2 = true :=
    (tick_selfFlag a).mpr ⟨i, hi, he⟩
  rw [hc, hf]
  rfl

/-- Claim C1, witness: `exC1` runs left into its neck segment (index 1 of a
3-segment pre-shift body) and the amended theorem yields GameOver there. -/
theorem claim_C1_witness :
    exC1.status = AppStatus.Playing ∧ exC1.tick [] = some exC1' ∧
    exC1'.status = AppStatus.GameOver :=
  ⟨rfl, by decide, claim_C1_theorem exC1 [] exC1' rfl (by decide) 1 (by decide) (by decide)⟩

/-- Claim C2, counterexample: on a field of width 41 the valid draw `(37, 0)`
(37 is a possible value of `(rand * 38).floor()`) is odd, so the spawner
bumps it to 38 = width - 3, violating the claimed strict bound
`x < field.width - 3`. -/
theorem claim_C2_counterexample :
    validDraw ⟨41, 20⟩ (37, 0) ∧
    generate_apple ⟨41, 20⟩ Snake.new.body [(37, 0)] = some ⟨38, 0⟩ ∧
    ¬ ((38 : Int) < (41 : Int) - 3) := by
  decide

/-- Claim C2, amended: for every apple placement the spawner performs (on a
field wider and taller than 3, with draws the random source can actually
deliver), the resulting point has an even x-coordinate, satisfies
`0 ≤ x ≤ field.width - 3` (the upper bound is attained when `width - 3` is
even, because an odd draw is bumped upward) and
`0 ≤ y < field.height - 3`, and is not equal to any segment of the snake
body it was checked against. -/
theorem claim_C2_theorem (field : Rect) (body : List Point) (draws : List (Int × Int))
    (p : Point) (hw : 3 < field.width) (hh : 3 < field.height)
    (hd : ∀ d ∈ draws, validDraw field d)
    (h : generate_apple field body draws = some p) :
    p.x % 2 = 0 ∧ 0 ≤ p.x ∧ p.x ≤ (field.width : Int) - 3 ∧
      0 ≤ p.y ∧ p.y < (field.height : Int) - 3 ∧ p ∉ body :=
  generate_apple_sound field body hw hh draws p hd h

/-- Claim C2, witness: the draw `(5, 7)` on a 40 by 20 field yields the
point `(6, 7)`, which satisfies every conclusion of the amended claim. -/
theorem claim_C2_witness :
    generate_apple ⟨40, 20⟩ [(⟨0, 0⟩ : Point)] [(5, 7)] = some ⟨6, 7⟩ ∧
    ((⟨6, 7⟩ : Point).x % 2 = 0 ∧ 0 ≤ (⟨6, 7⟩ : Point).x ∧
      (⟨6, 7⟩ : Point).x ≤ ((40 : Nat) : Int) - 3 ∧ 0 ≤ (⟨6, 7⟩ : Point).y ∧
      (⟨6, 7⟩ : Point).y < ((20 : Nat) : Int) - 3 ∧
      (⟨6, 7⟩ : Point) ∉ [(⟨0, 0⟩ : Point)]) :=
  ⟨by decide,
    claim_C2_theorem ⟨40, 20⟩ [⟨0, 0⟩] [(5, 7)] ⟨6, 7⟩ (by decide) (by decide)
      (by decide) (by decide)⟩

/-- Claim C3, counterexample: in `exC3_edge` the next head is `(37, 0)` with
`37 = field.width - 3`, which lies outside the claimed half-open rectangle
`[0, width-3) × [0, height-3)`, yet the tick leaves the status `Playing`:
the source compares with strict `>` against `width - 3`, so the closed
rectangle is the live region. -/
theorem claim_C3_counterexample :
    exC3_edge.status = AppStatus.Playing ∧
    exC3_edge.nextHead = (⟨37, 0⟩ : Point) ∧
    ¬ ((37 : Int) < (exC3_edge.field.width : Int) - 3) ∧
    (exC3_edge.tick []).map App.status = some AppStatus.Playing := by
  decide

/-- Claim C3, amended: for every tick executed while the status is Playing,
if the computed next head position lies outside the closed rectangle
`[0, field.width-3] × [0, field.height-3]` — that is, a coordinate is
negative or strictly exceeds the bound — then after the tick the status is
GameOver.  A next head with a coordinate exactly equal to `field.width - 3`
(or `field.height - 3`) does not trigger the wall collision. -/
theorem claim_C3_theorem (a : App) (draws : List (Int × Int)) (a' : App)
    (h : a.status = AppStatus.Playing) (ht : a.tick draws = some a')
    (hw : wallOut a.field a.nextHead) :
    a'.status = AppStatus.GameOver := by
  have hc := (tick_char a draws a' h ht).1
  have hb : wallHitB a.field a.nextHead = true := by
    unfold wallHitB
    unfold wallOut at hw
    simp only [Bool.or_eq_true, decide_eq_true_eq]
    tauto
  rw [hc, hb]
  simp

/-- Claim C3, witness: `exC3` moves its head to x = 38 > 37 = width - 3 and
the amended theorem yields GameOver. -/
theorem claim_C3_witness :
    exC3.tick [] = some exC3' ∧ exC3'.status = AppStatus.GameOver :=
  ⟨by decide, claim_C3_theorem exC3 [] exC3' rfl (by decide) (by decide)⟩

/-- Claim C4: for every tick executed while the status is Playing, if the
computed next head does not equal the apple position then body length and
score are unchanged; if it does, the body length grows by exactly 1, the
score grows by exactly 1, and the new last segment equals the pre-shift
last segment (growth by duplication). -/
theorem claim_C4_theorem (a : App) (draws : List (Int × Int)) (a' : App)
    (h : a.status = AppStatus.Playing) (ht : a.tick draws = some a') :
    (a.nextHead ≠ a.apple.point →
      a'.snake.body.length = a.snake.body.length ∧ a'.score = a.score) ∧
    (a.nextHead = a.apple.point →
      a'.snake.body.length = a.snake.body.length + 1 ∧ a'.score = a.score + 1 ∧
      (a.snake.body ≠ [] →
        a'.snake.body.getD (a'.snake.body.length - 1) ⟨0, 0⟩ =
          a.snake.body.getD (a.snake.body.length - 1) ⟨0, 0⟩)) := by
  obtain ⟨-, hbody, hscore, -, -, -, -⟩ := tick_char a draws a' h ht
  have hlen : a'.snake.body.length = a.preShiftBody.length := by
    rw [hbody, List.length_set, shiftLoop_length]
  constructor
  · intro hne
    have hb : a.preShiftBody = a.snake.body := by
      unfold App.preShiftBody
      rw [if_neg hne]
    refine ⟨by rw [hlen, hb], ?_⟩
    rw [hscore]
    unfold App.tickScore
    rw [if_neg hne]
  · intro heq
    have hb : a.preShiftBody =
        a.snake.body ++ [a.snake.body.getD (a.snake.body.length - 1) ⟨0, 0⟩] := by
      unfold App.preShiftBody
      rw [if_pos heq]
    have hlen' : a.preShiftBody.length = a.snake.body.length + 1 := by
      rw [hb, List.length_append, List.length_singleton]
    refine ⟨by rw [hlen, hlen'], ?_, ?_⟩
    · rw [hscore]
      unfold App.tickScore
      rw [if_pos heq]
    · intro hne
      have hn1 : 0 < a.snake.body.length := List.length_pos.mpr hne
      have hL : a'.snake.body.length - 1 = a.snake.body.length := by
        rw [hlen, hlen']
        omega
      rw [hL, hbody]
      rw [getD_set_ne _ _ _ (show (0 : Nat) ≠ a.snake.body.length by omega)]
      rw [shiftLoop_getD _ _ _ _ _ (by omega)]
      rw [if_pos (by constructor <;> omega)]
      rw [hb, getD_append_left _ _ _ (by omega)]

/-- Claim C4, witness: `exC4` eats the apple at `(10, 0)`; after the tick
the body has 6 = 5 + 1 segments and the score is 1 = 0 + 1. -/
theorem claim_C4_witness :
    exC4.tick [(20, 10)] = some exC4' ∧
    exC4'.snake.body.length = exC4.snake.body.length + 1 ∧
    exC4'.score = exC4.score + 1 :=
  ⟨by decide, by
    have hc := (claim_C4_theorem exC4 [(20, 10)] exC4' rfl (by decide)).2 (by decide)
    exact ⟨hc.1, hc.2.1⟩⟩

/-- Claim C5: whenever the confirm key (space) is pressed while the status
is Menu or GameOver and the dispatch completes, the resulting status is
Playing, the score is 0, and the snake is the canonical fresh snake:
exactly the 5 segments `[(8,0),(6,0),(4,0),(2,0),(0,0)]` with current and
pending direction both Right. -/
theorem claim_C5_theorem (a : App) (draws : List (Int × Int)) (a' : App)
    (h : a.status = AppStatus.Menu ∨ a.status = AppStatus.GameOver)
    (hk : a.handle_key_event KeyCode.Space draws = some a') :
    a'.status = AppStatus.Playing ∧ a'.score = 0 ∧
      a'.snake.body = [⟨8, 0⟩, ⟨6, 0⟩, ⟨4, 0⟩, ⟨2, 0⟩, ⟨0, 0⟩] ∧
      a'.snake.body.length = 5 ∧
      a'.snake.direction = Direction.Right ∧
      a'.snake.next_direction = Direction.Right := by
  have hs : a.start_game draws = some a' := by
    rcases h with h | h <;> simpa [App.handle_key_event, h] using hk
  unfold App.start_game at hs
  cases hg : generate_apple a.field Snake.new.body draws with
  | none => rw [hg] at hs; cases hs
  | some p =>
    rw [hg] at hs
    have he := Option.some.inj hs
    subst he
    exact ⟨rfl, rfl, rfl, rfl, rfl, rfl⟩

/-- Claim C5, witness: pressing space in the fresh menu state `exC5` with
draw `(10, 10)` starts a game in the canonical configuration. -/
theorem claim_C5_witness :
    exC5.handle_key_event KeyCode.Space [(10, 10)] = some exC5' ∧
    exC5'.status = AppStatus.Playing ∧ exC5'.score = 0 ∧
    exC5'.snake.body = [⟨8, 0⟩, ⟨6, 0⟩, ⟨4, 0⟩, ⟨2, 0⟩, ⟨0, 0⟩] :=
  ⟨by decide, by
    have hc := claim_C5_theorem exC5 [(10, 10)] exC5' (Or.inl rfl) (by decide)
    exact ⟨hc.1, hc.2.1, hc.2.2.1⟩⟩

/-- Claim C6: the pending direction is never the direct opposite of the
current direction: the invariant holds in the initial state, is preserved
by every key event and by every tick, and a directional request equal to
the exact opposite of the current direction leaves the state entirely
unchanged. -/
theorem claim_C6_theorem (a : App) (h : SnakeInv a) :
    SnakeInv App.new ∧
    (∀ (k : KeyCode) (draws : List (Int × Int)) (a' : App),
      a.handle_key_event k draws = some a' → SnakeInv a') ∧
    (∀ (draws : List (Int × Int)) (a' : App),
      a.tick draws = some a' → SnakeInv a') ∧
    (∀ (k : KeyCode) (d : Direction) (draws : List (Int × Int)),
      keyDirection k = some d → d = a.snake.direction.opposite →
        a.handle_key_event k draws = some a) := by
  refine ⟨by decide, ?_, ?_, ?_⟩
  · intro k draws a' hk
    cases hkd : keyDirection k with
    | some d =>
      rw [handle_directional a k d hkd draws] at hk
      have he := Option.some.inj hk
      subst he
      exact snakeInv_dirUpdate a h d
    | none =>
      cases k with
      | Up | CharW | Down | CharS | Left | CharA | Right | CharD =>
        simp [keyDirection] at hkd
      | Esc =>
        have he := Option.some.inj hk
        subst he
        exact h
      | Other =>
        have he := Option.some.inj hk
        subst he
        exact h
      | Space =>
        cases hst : a.status with
        | Menu | GameOver =>
          rw [show a.handle_key_event KeyCode.Space draws = a.start_game draws by
            simp [App.handle_key_event, hst]] at hk
          unfold App.start_game at hk
          cases hg : generate_apple a.field Snake.new.body draws with
          | none => rw [hg] at hk; cases hk
          | some p =>
            rw [hg] at hk
            have he := Option.some.inj hk
            subst he
            exact (by decide : (Direction.Right : Direction) ≠ Direction.Left)
        | Playing =>
          rw [show a.handle_key_event KeyCode.Space draws = some a by
            simp [App.handle_key_event, hst]] at hk
          have he := Option.some.inj hk
          subst he
          exact h
      | Enter =>
        cases hst : a.status with
        | GameOver =>
          rw [show a.handle_key_event KeyCode.Enter draws =
              some { a with status := AppStatus.Menu } by
            simp [App.handle_key_event, hst]] at hk
          have he := Option.some.inj hk
          subst he
          exact h
        | Menu =>
          rw [show a.handle_key_event KeyCode.Enter draws = some a by
            simp [App.handle_key_event, hst]] at hk
          have he := Option.some.inj hk
          subst he
          exact h
        | Playing =>
          rw [show a.handle_key_event KeyCode.Enter draws = some a by
            simp [App.handle_key_event, hst]] at hk
          have he := Option.some.inj hk
          subst he
          exact h
  · intro draws a' ht
    by_cases hp : a.status = AppStatus.Playing
    · obtain ⟨-, -, -, hdir, hnext, -, -⟩ := tick_char a draws a' hp ht
      unfold SnakeInv
      rw [hdir, hnext]
      exact opposite_ne _
    · rw [tick_notPlaying a draws hp] at ht
      have he := Option.some.inj ht
      subst he
      exact h
  · intro k d draws hk hd
    rw [handle_directional a k d hk draws]
    have hcond : a.snake.direction = d.opposite := by
      rw [hd, opposite_opposite]
    rw [if_pos hcond]

/-- Claim C6, witness: the invariant holds after requesting `Up` in the
fresh state (whose current direction is Right). -/
theorem claim_C6_witness : SnakeInv exC6' :=
  (claim_C6_theorem App.new (by decide)).2.1 KeyCode.Up [] exC6' (by decide)

/-- Claim C7, counterexample: in the fresh state the status is Menu, yet
pressing the Up key does not leave the application state unchanged — the
directional arms never inspect the status, so the snake's
`next_direction` is overwritten even on the menu screen. -/
theorem claim_C7_counterexample :
    App.new.status = AppStatus.Menu ∧
    App.handle_key_event App.new KeyCode.Up [] ≠ some App.new := by
  decide

/-- Claim C7, amended: while the status is Menu or GameOver, handling a
directional key leaves every component of the application state unchanged
except the snake's `pending_direction`, which is updated under the same
no-reversal rule as during play (unchanged when the request is the exact
opposite of the current direction, otherwise set to the request). -/
theorem claim_C7_theorem (a : App) (k : KeyCode) (d : Direction) (draws : List (Int × Int))
    (_h : a.status = AppStatus.Menu ∨ a.status = AppStatus.GameOver)
    (hk : keyDirection k = some d) :
    a.handle_key_event k draws =
      some { a with snake := { a.snake with
        next_direction :=
          if a.snake.direction = d.opposite then a.snake.next_direction else d } } :=
  handle_directional a k d hk draws

/-- Claim C7, witness: pressing `s` (request Down) on the game-over screen
updates only the pending direction. -/
theorem claim_C7_witness :
    App.handle_key_event exC7go KeyCode.CharS [] =
      some { exC7go with snake := { exC7go.snake with
        next_direction :=
          if exC7go.snake.direction = Direction.Down.opposite then
            exC7go.snake.next_direction
          else Direction.Down } } :=
  claim_C7_theorem exC7go KeyCode.CharS Direction.Down [] (Or.inr rfl) rfl

/-- Claim C8: the apple spawner does NOT have the claimed bounded retry
with a deterministic fallback — it is unbounded self-recursion.  On a
4 by 4 field the only candidate cell is `(0, 0)`; with the body occupying
it, the spawner rejects every draw the random source can deliver and
recurses forever: in the draw-stream model it returns `none` for every
stream of valid draws, of any length, instead of ever producing a point. -/
theorem claim_C8_theorem : ∀ (draws : List (Int × Int)),
    (∀ d ∈ draws, validDraw ⟨4, 4⟩ d) →
      generate_apple ⟨4, 4⟩ [⟨0, 0⟩] draws = none := by
  intro draws
  induction draws with
  | nil => intro _; rfl
  | cons d rest ih =>
    intro hd
    obtain ⟨dx, dy⟩ := d
    have hv := hd (dx, dy) (List.mem_cons_self _ _)
    have hxy : dx = 0 ∧ dy = 0 := by
      simp only [validDraw, floorRange] at hv
      norm_num at hv
      omega
    obtain ⟨hx, hy⟩ := hxy
    subst hx
    subst hy
    have hstep : generate_apple ⟨4, 4⟩ [⟨0, 0⟩] ((0, 0) :: rest) =
        generate_apple ⟨4, 4⟩ [⟨0, 0⟩] rest := rfl
    rw [hstep]
    exact ih (fun d hdm => hd d (List.mem_cons_of_mem _ hdm))

/-- Claim C8, witness: two valid draws on the full 4 by 4 field both
collide and the spawner still has no point. -/
theorem claim_C8_witness :
    (∀ d ∈ [((0 : Int), (0 : Int)), (0, 0)], validDraw ⟨4, 4⟩ d) ∧
    generate_apple ⟨4, 4⟩ [⟨0, 0⟩] [(0, 0), (0, 0)] = none :=
  ⟨by decide, claim_C8_theorem [(0, 0), (0, 0)] (by decide)⟩

/-- Claim C9: while the status is Playing, no key event changes the
status, and a tick either keeps the status Playing or moves it to GameOver
— and then only because of a self collision or a wall collision; in
particular Playing never transitions directly to Menu. -/
theorem claim_C9_theorem (a : App) (h : a.status = AppStatus.Playing) :
    (∀ (k : KeyCode) (draws : List (Int × Int)) (a' : App),
      a.handle_key_event k draws = some a' → a'.status = AppStatus.Playing) ∧
    (∀ (draws : List (Int × Int)) (a' : App),
      a.tick draws = some a' →
        a'.status = AppStatus.Playing ∨
          (a'.status = AppStatus.GameOver ∧
            (a.selfHit ∨ wallOut a.field a.nextHead))) := by
  constructor
  · intro k draws a' hk
    cases k <;> cases hd : a.snake.direction <;>
      simp only [App.handle_key_event, h, hd, Option.some.injEq] at hk <;>
        subst hk <;> simp [h]
  · intro draws a' ht
    obtain ⟨hst, -, -, -, -, -, -⟩ := tick_char a draws a' h ht
    by_cases hflag :
        ((shiftLoop a.nextHead (a.preShiftBody.length - 1) a.preShiftBody false).2
          || wallHitB a.field a.nextHead) = true
    · right
      refine ⟨by rw [hst, if_pos hflag], ?_⟩
      have hflag' :
          (shiftLoop a.nextHead (a.preShiftBody.length - 1) a.preShiftBody false).2 = true ∨
            wallHitB a.field a.nextHead = true := by
        simpa [Bool.or_eq_true] using hflag
      rcases hflag' with hf | hwall
      · exact Or.inl ((tick_selfFlag a).mp hf)
      · refine Or.inr ?_
        unfold wallHitB at hwall
        unfold wallOut
        simp only [Bool.or_eq_true, decide_eq_true_eq] at hwall
        tauto
    · left
      rw [hst, if_neg hflag]

/-- Claim C9, witness: pressing Esc in the playing state `exC9` sets the
exit flag but the status stays Playing. -/
theorem claim_C9_witness : App.status { exC9 with exit := true } = AppStatus.Playing :=
  (claim_C9_theorem exC9 rfl).1 KeyCode.Esc [] { exC9 with exit := true } (by decide)

/-- Claim C10: in the freshly constructed application state the apple sits
at `(0, 0)`, which coincides with a segment of the initial snake body; the
apple/body disjointness is re-established by every completed start-game
transition, whose spawner rejects any candidate lying on the fresh body. -/
theorem claim_C10_theorem :
    App.new.apple.point = (⟨0, 0⟩ : Point) ∧
    App.new.apple.point ∈ App.new.snake.body ∧
    (∀ (a : App) (draws : List (Int × Int)) (a' : App),
      a.start_game draws = some a' → a'.apple.point ∉ a'.snake.body) := by
  refine ⟨rfl, by decide, ?_⟩
  intro a draws a' hs
  unfold App.start_game at hs
  cases hg : generate_apple a.field Snake.new.body draws with
  | none => rw [hg] at hs; cases hs
  | some p =>
    rw [hg] at hs
    have he := Option.some.inj hs
    subst he
    exact generate_apple_not_mem a.field Snake.new.body draws p hg

/-- Claim C10, witness: starting a game from `exC10` with draw `(12, 4)`
yields an apple off the fresh body. -/
theorem claim_C10_witness : exC10'.apple.point ∉ exC10'.snake.body :=
  claim_C10_theorem.2.2 exC10 [(12, 4)] exC10' (by decide)

end SnakeGame
